import Mathlib

/-!
Verification of `generate_config.py`, a one-shot static-site build helper:
it scans a directory of Markdown files, extracts YAML front-matter metadata
(`id`, `title`, `tags`, `links`) and emits a single JSON index `config.json`.

The embedding below translates the Python source into Lean:
  * Python values produced by `yaml.safe_load` become the `Yaml` type
    (strings, integers, booleans, `None`, lists, mappings; the claims under
    study never involve floating-point values, which are therefore omitted).
  * `yaml.safe_load` itself is an external library (PyYAML, not part of this
    repository), so it is a parameter `yamlParse : List Char → Except String Yaml`
    of every function that uses it; `Except.error` models a raised exception.
  * File contents are `List Char` (Python `str`), filenames are `String`.
  * The filesystem visible to `main` is an explicit `FS` state.
-/

mutual

/-- A Python value as produced by `yaml.safe_load` on the YAML subset the
script cares about: `str`, `int`, `bool`, `None`, `list`, `dict`. -/
inductive Yaml where
  | str (s : String)
  | int (n : Int)
  | bool (b : Bool)
  | null
  | list (xs : YamlSeq)
  | map (kvs : YamlMap)

/-- A Python list of `Yaml` values. -/
inductive YamlSeq where
  | nil
  | cons (hd : Yaml) (tl : YamlSeq)

/-- A Python dict with `Yaml` keys and values, as an ordered association list. -/
inductive YamlMap where
  | nil
  | cons (k : Yaml) (v : Yaml) (tl : YamlMap)

end

mutual

/-- Structural equality on `Yaml` (Python `==` on these values). -/
def yamlBeq : Yaml → Yaml → Bool
  | .str a, .str b => a == b
  | .int a, .int b => a == b
  | .bool a, .bool b => a == b
  | .null, .null => true
  | .list a, .list b => yamlSeqBeq a b
  | .map a, .map b => yamlMapBeq a b
  | _, _ => false

def yamlSeqBeq : YamlSeq → YamlSeq → Bool
  | .nil, .nil => true
  | .cons a as, .cons b bs => yamlBeq a b && yamlSeqBeq as bs
  | _, _ => false

def yamlMapBeq : YamlMap → YamlMap → Bool
  | .nil, .nil => true
  | .cons k v tl, .cons k2 v2 tl2 => yamlBeq k k2 && yamlBeq v v2 && yamlMapBeq tl tl2
  | _, _ => false

end

instance : BEq Yaml := ⟨yamlBeq⟩

/-- Python `dict.get(key)`: the value stored at `key`, or `None`
(here `Option.none`) when the key is absent. -/
def YamlMap.get : YamlMap → Yaml → Option Yaml
  | .nil, _ => none
  | .cons k v tl, key => if yamlBeq k key then some v else tl.get key

/-- The front-matter delimiter `'---'`. -/
def SEP : List Char := ['-', '-', '-']

/-- Python `s.startswith(p)` on character lists: `p` is a leading segment of `s`. -/
def isPre : List Char → List Char → Bool
  | [], _ => true
  | _ :: _, [] => false
  | a :: as, b :: bs => a == b && isPre as bs

/-- First occurrence of `sep` as a contiguous run inside `s`:
`some (before, after)` splits `s` around that first occurrence,
`none` when `sep` does not occur.  This is the single step of Python
`str.split(sep, maxsplit)`. -/
def findSep (sep : List Char) : List Char → Option (List Char × List Char)
  | [] => if isPre sep [] then some ([], []) else none
  | c :: rest =>
    if isPre sep (c :: rest) then some ([], List.drop sep.length (c :: rest))
    else
      match findSep sep rest with
      | some (b, a) => some (c :: b, a)
      | none => none

/-- Python `s.split(sep, maxsplit)`: split on the leftmost occurrences of
`sep`, at most `maxsplit` times, keeping the remainder whole. -/
def splitLimit (sep : List Char) : Nat → List Char → List (List Char)
  | 0, s => [s]
  | n + 1, s =>
    match findSep sep s with
    | none => [s]
    | some (b, a) => b :: splitLimit sep n a

/-- The `try` body's tail in `parse_markdown_front_matter`:
`meta = yaml.safe_load(fm_text); return meta if isinstance(meta, dict) else {}`,
with the surrounding `except Exception: return {}` for a raised parse error. -/
def fmResult (yamlParse : List Char → Except String Yaml) (fm_text : List Char) : YamlMap :=
  match yamlParse fm_text with
  | .ok (.map m) => m
  | .ok _ => .nil
  | .error _ => .nil

/-- `parse_markdown_front_matter` from `generate_config.py`: if the content
starts with `'---'`, split on `'---'` into at most 3 parts; with fewer than 3
parts return the empty dict; otherwise run the YAML parser on the middle part,
swallowing every parser exception and every non-dict result into the empty
dict. -/
def parse_markdown_front_matter (yamlParse : List Char → Except String Yaml)
    (content : List Char) : YamlMap :=
  if isPre SEP content then
    let parts := splitLimit SEP 2 content
    if parts.length < 3 then .nil
    else fmResult yamlParse (parts.getD 1 [])
  else .nil

/-- Index of the last occurrence of `c` in `p`, or `-1` when absent
(Python `str.rfind`). -/
def rfindIdx (c : Char) (p : List Char) : Int :=
  match p.reverse.findIdx? (· == c) with
  | none => -1
  | some k => (p.length : Int) - 1 - (k : Int)

/-- The root part of CPython `os.path.splitext` (posix flavour, `sep = '/'`,
`extsep = '.'`): cut at the last dot after the last slash, unless every
character between them is a dot (so that dotfiles like `.md` keep their name). -/
def splitext_root (p : List Char) : List Char :=
  let sepIndex := rfindIdx '/' p
  let dotIndex := rfindIdx '.' p
  if sepIndex < dotIndex then
    let start := (sepIndex + 1).toNat
    let dn := dotIndex.toNat
    if (List.range dn).any (fun j => start ≤ j && p.getD j ' ' != '.') then
      p.take dn
    else p
  else p

/-- CPython `posixpath.join` restricted to two components, as used by the
script (`os.path.join(notes_dir, filename)`). -/
def os_path_join (a b : String) : String :=
  if b.data.head? = some '/' then b
  else if a = "" ∨ a.data.getLast? = some '/' then a ++ b
  else a ++ "/" ++ b

/-- Python `path.replace('\\', '/')` (single-character replacement). -/
def replaceBackslash (s : String) : String :=
  String.map (fun c => if c = '\\' then '/' else c) s

/-- One entry of the generated configuration, as assembled by the dict
literal in `build_config_from_notes`. `tags` and `links` are whatever Python
lists came out of the front-matter, so their elements stay arbitrary `Yaml`. -/
structure NoteRecord where
  id : String
  title : String
  tags : YamlSeq
  links : YamlSeq
  file : String

/-- The loop body of `build_config_from_notes` for one retained file:
derive each field from the front-matter with its type-checked fallback,
and compute the forward-slash `file` path. -/
def processNote (yamlParse : List Char → Except String Yaml)
    (notes_dir filename : String) (content : List Char) : NoteRecord :=
  let meta := parse_markdown_front_matter yamlParse content
  let id_ :=
    match meta.get (.str "id") with
    | some (.str s) => s
    | _ => String.mk (splitext_root filename.data)
  let title :=
    match meta.get (.str "title") with
    | some (.str s) => s
    | _ => id_
  let tags :=
    match meta.get (.str "tags") with
    | some (.list xs) => xs
    | _ => YamlSeq.nil
  let links :=
    match meta.get (.str "links") with
    | some (.list xs) => xs
    | _ => YamlSeq.nil
  { id := id_, title := title, tags := tags, links := links,
    file := replaceBackslash (os_path_join notes_dir filename) }

/-- Python `filename.lower().endswith('.md')`. -/
def isMdFile (filename : String) : Bool :=
  isPre ['d', 'm', '.'] (filename.data.map Char.toLower).reverse

/-- Python `sorted` on a list of strings: the unique permutation that is
sorted for the code-point lexicographic order (uniqueness holds because `≤`
on `String` is total and antisymmetric, so the particular sorting algorithm
is irrelevant to the value). -/
def pySorted (l : List String) : List String :=
  List.insertionSort (· ≤ ·) l

/-- The generated configuration: a single field `notes`. -/
structure Config where
  notes : List NoteRecord

/-- `build_config_from_notes` from `generate_config.py`: iterate over the
sorted directory listing, skip names not ending in `.md` (case-insensitive),
read each retained file and append its record. `listing` stands for
`os.listdir(notes_dir)` and `readFile` for reading a path's text content. -/
def build_config_from_notes (yamlParse : List Char → Except String Yaml)
    (notes_dir : String) (listing : List String)
    (readFile : String → List Char) : Config :=
  let notes := (pySorted listing).foldl
    (fun acc filename =>
      if ¬ isMdFile filename then acc
      else acc ++ [processNote yamlParse notes_dir filename
        (readFile (os_path_join notes_dir filename))])
    []
  ⟨notes⟩

mutual

/-- A JSON document as `json.dump` sees it: object fields keep their
insertion order. -/
inductive Json where
  | str (s : String)
  | num (n : Int)
  | bool (b : Bool)
  | null
  | arr (xs : JsonArr)
  | obj (o : JsonObj)

inductive JsonArr where
  | nil
  | cons (hd : Json) (tl : JsonArr)

inductive JsonObj where
  | nil
  | cons (k : String) (v : Json) (tl : JsonObj)

end

/-- The keys of a JSON object, in emission order. -/
def objKeys : JsonObj → List String
  | .nil => []
  | .cons k _ tl => k :: objKeys tl

/-- First value stored under `key` in a JSON object. -/
def objLookup (key : String) : JsonObj → Option Json
  | .nil => none
  | .cons k v tl => if k == key then some v else objLookup key tl

/-- How `json.dump` renders a Python dict key that is not a string.
Lists and dicts are unhashable in Python, so only scalars can occur. -/
def yamlKeyStr : Yaml → String
  | .str s => s
  | .int n => toString n
  | .bool b => if b then "true" else "false"
  | .null => "null"
  | _ => ""

mutual

/-- The JSON value `json.dump` serializes for a Python value. -/
def yamlToJson : Yaml → Json
  | .str s => .str s
  | .int n => .num n
  | .bool b => .bool b
  | .null => .null
  | .list xs => .arr (yamlSeqToArr xs)
  | .map m => .obj (yamlMapToObj m)

def yamlSeqToArr : YamlSeq → JsonArr
  | .nil => .nil
  | .cons x tl => .cons (yamlToJson x) (yamlSeqToArr tl)

def yamlMapToObj : YamlMap → JsonObj
  | .nil => .nil
  | .cons k v tl => .cons (yamlKeyStr k) (yamlToJson v) (yamlMapToObj tl)

end

/-- The JSON object serialized for one note: the dict literal of
`build_config_from_notes`, in its source order
`id`, `title`, `tags`, `file`, `links`. -/
def noteObj (r : NoteRecord) : JsonObj :=
  .cons "id" (.str r.id)
    (.cons "title" (.str r.title)
      (.cons "tags" (.arr (yamlSeqToArr r.tags))
        (.cons "file" (.str r.file)
          (.cons "links" (.arr (yamlSeqToArr r.links)) .nil))))

def listToArr : List Json → JsonArr
  | [] => .nil
  | x :: tl => .cons x (listToArr tl)

/-- The top-level JSON document `{"notes": [...]}`. -/
def configToJson (c : Config) : Json :=
  .obj (.cons "notes" (.arr (listToArr (c.notes.map (fun r => .obj (noteObj r))))) .nil)

/-- Hexadecimal digit (lowercase), for `\u00XX` escapes. -/
def hexDigit (n : Nat) : Char :=
  if n < 10 then Char.ofNat (48 + n) else Char.ofNat (87 + n)

/-- How `json.dump` with `ensure_ascii=False` escapes one character:
only the quote, the backslash and control characters are escaped;
everything else (including non-ASCII) is kept literal. -/
def escapeChar (c : Char) : List Char :=
  if c = '"' then ['\\', '"']
  else if c = '\\' then ['\\', '\\']
  else if c = '\n' then ['\\', 'n']
  else if c = '\r' then ['\\', 'r']
  else if c = '\t' then ['\\', 't']
  else if c = Char.ofNat 8 then ['\\', 'b']
  else if c = Char.ofNat 12 then ['\\', 'f']
  else if c.toNat < 32 then
    ['\\', 'u', '0', '0', hexDigit (c.toNat / 16), hexDigit (c.toNat % 16)]
  else [c]

def jsonEscape (s : String) : String :=
  String.mk (s.data.map escapeChar).flatten

/-- Indentation produced by `json.dump(..., indent=2)` at nesting level `lvl`. -/
def indentStr (lvl : Nat) : String :=
  String.mk (List.replicate (2 * lvl) ' ')

mutual

/-- `json.dump(..., ensure_ascii=False, indent=2)`: the exact text emitted
for a JSON value at nesting level `lvl`. -/
def jdump (lvl : Nat) : Json → String
  | .str s => "\"" ++ jsonEscape s ++ "\""
  | .num n => toString n
  | .bool b => if b then "true" else "false"
  | .null => "null"
  | .arr .nil => "[]"
  | .arr (.cons x tl) =>
    "[\n" ++ indentStr (lvl + 1) ++ jitems (lvl + 1) x tl ++ "\n" ++ indentStr lvl ++ "]"
  | .obj .nil => "\x7b\x7d"
  | .obj (.cons k v tl) =>
    "\x7b\n" ++ indentStr (lvl + 1) ++ jfields (lvl + 1) k v tl ++ "\n" ++ indentStr lvl ++ "\x7d"
termination_by j => sizeOf j

def jitems (lvl : Nat) (x : Json) : JsonArr → String
  | .nil => jdump lvl x
  | .cons y tl => jdump lvl x ++ ",\n" ++ indentStr lvl ++ jitems lvl y tl
termination_by a => sizeOf x + sizeOf a

def jfields (lvl : Nat) (k : String) (v : Json) : JsonObj → String
  | .nil => "\"" ++ jsonEscape k ++ "\": " ++ jdump lvl v
  | .cons k2 v2 tl =>
    "\"" ++ jsonEscape k ++ "\": " ++ jdump lvl v ++ ",\n" ++ indentStr lvl ++
      jfields lvl k2 v2 tl
termination_by o => sizeOf v + sizeOf o

end

/-- The full text of `config.json` for a given configuration. -/
def json_dumps (c : Config) : String :=
  jdump 0 (configToJson c)

/-- The filesystem state `main` can observe and change: whether the `notes`
directory exists, its listing (`os.listdir`, in arbitrary OS order), the text
content behind each path, and the current content of `config.json` (if any). -/
structure FS where
  notesDirExists : Bool
  listing : List String
  readFile : String → List Char
  configJson : Option String

/-- How one run of the script ends: `exitError` is `raise SystemExit(msg)`
(message on stderr, exit status 1), `success n` is the normal exit after
printing the note count `n`. -/
inductive RunOutcome where
  | exitError (msg : String)
  | success (count : Nat)

/-- The `SystemExit` message for a missing `notes` directory. -/
def dirMissingMsg : String :=
  "Le répertoire \x27notes\x27 n\x27existe pas. Crééz‑le et ajoutez des fichiers Markdown."

/-- `main` from `generate_config.py` over the explicit filesystem state:
abort when `notes/` is not a directory, otherwise build the configuration
and overwrite `config.json` with its serialized text. -/
def main' (yamlParse : List Char → Except String Yaml) (fs : FS) : FS × RunOutcome :=
  if fs.notesDirExists then
    let config := build_config_from_notes yamlParse "notes" fs.listing fs.readFile
    ({ fs with configJson := some (json_dumps config) }, .success config.notes.length)
  else (fs, .exitError dirMissingMsg)

/-- Whether `sep` occurs as a contiguous run anywhere in the string
(Python `sep in s`). -/
def hasSub (sep : List Char) : List Char → Bool
  | [] => isPre sep []
  | c :: rest => isPre sep (c :: rest) || hasSub sep rest

/-- Decomposition of a text into its lines (maximal `'\n'`-free runs, the
newline characters themselves removed). -/
def linesOf : List Char → List (List Char)
  | [] => [[]]
  | c :: rest =>
    if c = '\n' then [] :: linesOf rest
    else
      match linesOf rest with
      | [] => [[c]]
      | l :: tl => (c :: l) :: tl

/-- A PyYAML instantiation that answers `None` on every document
(`yaml.safe_load` does return `None` on an empty or comment-only document). -/
def ypNull : List Char → Except String Yaml := fun _ => .ok .null

/-- The `yaml.safe_load` results relevant to a front-matter declaring
`id: alpha` and `title: Alpha`. -/
def ypAlpha : List Char → Except String Yaml := fun s =>
  if s = "\nid: alpha\ntitle: Alpha\n".data then
    .ok (.map (.cons (.str "id") (.str "alpha")
      (.cons (.str "title") (.str "Alpha") .nil)))
  else .ok .null

/-- The `yaml.safe_load` results relevant to a front-matter declaring
`tags: [1]` — a list whose element is the integer `1`, not a string. -/
def ypTagsNum : List Char → Except String Yaml := fun s =>
  if s = "\ntags: [1]\n".data then
    .ok (.map (.cons (.str "tags") (.list (.cons (.int 1) .nil)) .nil))
  else .ok .null

/-- The `yaml.safe_load` results relevant to the document `id: a`
(as produced when a mid-line `---` cuts the text `id: a---rest`). -/
def ypIdA : List Char → Except String Yaml := fun s =>
  if s = "\nid: a".data then
    .ok (.map (.cons (.str "id") (.str "a") .nil))
  else .ok .null

/-- If `p` leads `x`, it also leads `x ++ y`. -/
theorem isPre_extend (p : List Char) :
    ∀ x y : List Char, isPre p x = true → isPre p (x ++ y) = true := by
  induction p with
  | nil => intro x y _; simp [isPre]
  | cons a as ih =>
    intro x y h
    cases x with
    | nil => simp [isPre] at h
    | cons b bs =>
      simp only [isPre, Bool.and_eq_true] at h
      simp only [List.cons_append, isPre, Bool.and_eq_true]
      exact ⟨h.1, ih bs y h.2⟩

/-- Whether `p` leads `x ++ y` only depends on `x` once `x` is at least as
long as `p`. -/
theorem isPre_restrict (p : List Char) :
    ∀ x y : List Char, p.length ≤ x.length → isPre p (x ++ y) = isPre p x := by
  induction p with
  | nil => intro x y _; simp [isPre]
  | cons a as ih =>
    intro x y h
    cases x with
    | nil => simp at h
    | cons b bs =>
      simp only [List.length_cons, Nat.add_le_add_iff_right] at h
      simp only [List.cons_append, isPre]
      have h2 : isPre as (bs.append y) = isPre as bs := ih bs y h
      rw [h2]

/-- Every string leads itself followed by anything. -/
theorem isPre_append_self (p t : List Char) : isPre p (p ++ t) = true := by
  induction p with
  | nil => simp [isPre]
  | cons a as ih => simp [isPre, ih]

/-- Dropping `n ≤ x.length` characters from `x ++ y` drops them inside `x`. -/
theorem drop_append_seg :
    ∀ (n : Nat) (x y : List Char), n ≤ x.length → (x ++ y).drop n = x.drop n ++ y := by
  intro n
  induction n with
  | zero => intro x y _; simp
  | succ n ih =>
    intro x y h
    cases x with
    | nil => simp at h
    | cons b bs =>
      simp only [List.length_cons, Nat.add_le_add_iff_right] at h
      simp only [List.cons_append, List.drop_succ_cons]
      exact ih bs y h

/-- `findSep` at a leading delimiter: the first part is empty and the rest
follows the delimiter. -/
theorem findSep_SEP_leading (t : List Char) : findSep SEP (SEP ++ t) = some ([], t) := by
  have h1 : isPre SEP (SEP ++ t) = true := isPre_append_self SEP t
  have hs : SEP ++ t = '-' :: ('-' :: '-' :: t) := rfl
  rw [hs] at h1
  rw [hs, findSep, if_pos h1]
  rfl

/-- When `'---'` does not occur in `F`, the part of `F ++ '---' ++ B` before
its first `'---'` occurrence, and the gap up to the delimiter's end, do not
depend on `B`. -/
theorem findSep_body_indep (F : List Char) (h : hasSub SEP F = false) :
    ∃ b t, ∀ B : List Char, findSep SEP (F ++ SEP ++ B) = some (b, t ++ B) := by
  induction F with
  | nil =>
    refine ⟨[], [], fun B => ?_⟩
    simpa using findSep_SEP_leading B
  | cons c F ih =>
    simp only [hasSub, Bool.or_eq_false_iff] at h
    have hlen : SEP.length ≤ ((c :: F) ++ SEP).length := by
      simp [SEP]
    by_cases hp : isPre SEP ((c :: F) ++ SEP) = true
    · refine ⟨[], List.drop 3 ((c :: F) ++ SEP), fun B => ?_⟩
      have hp2 : isPre SEP (((c :: F) ++ SEP) ++ B) = true := by
        rw [isPre_restrict SEP ((c :: F) ++ SEP) B hlen]
        exact hp
      have hs : ((c :: F) ++ SEP) ++ B = c :: ((F ++ SEP) ++ B) := by simp
      rw [hs] at hp2
      rw [hs, findSep, if_pos hp2]
      have hd : List.drop SEP.length (c :: ((F ++ SEP) ++ B)) =
          List.drop 3 ((c :: F) ++ SEP) ++ B := by
        rw [← hs, show SEP.length = 3 from rfl]
        exact drop_append_seg 3 ((c :: F) ++ SEP) B hlen
      rw [hd]
    · obtain ⟨b, t, hb⟩ := ih h.2
      refine ⟨c :: b, t, fun B => ?_⟩
      have hpf : isPre SEP ((c :: F) ++ SEP) = false := by
        simpa using hp
      have hp2 : isPre SEP (((c :: F) ++ SEP) ++ B) = false := by
        rw [isPre_restrict SEP ((c :: F) ++ SEP) B hlen]
        exact hpf
      have hs : ((c :: F) ++ SEP) ++ B = c :: ((F ++ SEP) ++ B) := by simp
      rw [hs] at hp2
      rw [hs, findSep, if_neg (fun hcon => by rw [hp2] at hcon; exact Bool.noConfusion hcon)]
      rw [hb B]

/-- The extractor on content led by `'---'`, in terms of the first further
occurrence of `'---'`: none means no closing delimiter (empty mapping),
otherwise the segment strictly between the two occurrences is parsed. -/
theorem parse_SEP_led (yp : List Char → Except String Yaml) (rest : List Char) :
    parse_markdown_front_matter yp (SEP ++ rest) =
      match findSep SEP rest with
      | none => YamlMap.nil
      | some (b, _) => fmResult yp b := by
  have h1 : isPre SEP (SEP ++ rest) = true := isPre_append_self SEP rest
  have hsplit : splitLimit SEP 2 (SEP ++ rest) = [] :: splitLimit SEP 1 rest := by
    rw [splitLimit, findSep_SEP_leading]
  cases hf : findSep SEP rest with
  | none =>
    have h2 : splitLimit SEP 1 rest = [rest] := by rw [splitLimit, hf]
    simp [parse_markdown_front_matter, h1, hsplit, h2]
  | some ba =>
    obtain ⟨b, a⟩ := ba
    have h2 : splitLimit SEP 1 rest = [b, a] := by rw [splitLimit, hf]; rfl
    simp [parse_markdown_front_matter, h1, hsplit, h2]

/-- When the front-matter text `F` contains no `'---'`, the extractor's
result on `'---' + F + '---' + B` does not depend on the body `B`. -/
theorem parse_body_indep (F : List Char) (h : hasSub SEP F = false)
    (yp : List Char → Except String Yaml) (B1 B2 : List Char) :
    parse_markdown_front_matter yp (SEP ++ F ++ SEP ++ B1) =
      parse_markdown_front_matter yp (SEP ++ F ++ SEP ++ B2) := by
  obtain ⟨b, t, hb⟩ := findSep_body_indep F h
  have key : ∀ B, parse_markdown_front_matter yp (SEP ++ F ++ SEP ++ B) = fmResult yp b := by
    intro B
    have hA : SEP ++ F ++ SEP ++ B = SEP ++ ((F ++ SEP) ++ B) := by simp
    rw [hA, parse_SEP_led]
    rw [hb B]
  rw [key B1, key B2]

/-- The record-building loop is the composition of filtering on `.md` names
and mapping the per-file record constructor. -/
theorem foldl_notes (yp : List Char → Except String Yaml) (dir : String)
    (rf : String → List Char) :
    ∀ (l : List String) (acc : List NoteRecord),
      l.foldl (fun acc filename =>
          if ¬ isMdFile filename then acc
          else acc ++ [processNote yp dir filename (rf (os_path_join dir filename))]) acc
        = acc ++ (l.filter isMdFile).map
            (fun fn => processNote yp dir fn (rf (os_path_join dir fn))) := by
  intro l
  induction l with
  | nil => intro acc; simp
  | cons fn l ih =>
    intro acc
    by_cases hm : isMdFile fn = true
    · simp only [List.foldl_cons, List.filter_cons, hm, if_true]
      rw [ih]
      simp
    · simp only [List.foldl_cons, List.filter_cons, hm, if_false]
      rw [if_pos (by simp [hm]), ih]
      simp [hm]

/-- `sorted` is permutation-invariant: two listings with the same names give
the same sorted list (uniqueness of the sorted permutation for a total
antisymmetric order). -/
theorem pySorted_eq_of_perm {l1 l2 : List String} (h : List.Perm l1 l2) :
    pySorted l1 = pySorted l2 := by
  unfold pySorted
  exact List.eq_of_perm_of_sorted
    ((List.perm_insertionSort _ l1).trans (h.trans (List.perm_insertionSort _ l2).symm))
    (List.sorted_insertionSort _ l1)
    (List.sorted_insertionSort _ l2)

/-- Sorting a listing yields a permutation of it. -/
theorem pySorted_perm (l : List String) : List.Perm (pySorted l) l := by
  unfold pySorted
  exact List.perm_insertionSort _ l

/-- Sorting a listing yields a `≤`-sorted list. -/
theorem pySorted_sorted (l : List String) :
    List.Sorted (fun a b : String => a ≤ b) (pySorted l) := by
  unfold pySorted
  exact List.sorted_insertionSort _ l

/-- C1: for every processed Markdown file, the record's `id` equals the
front-matter `id` value when that key holds a string, and otherwise the
filename with its extension removed (`os.path.splitext` root); the record's
`title` equals the front-matter `title` value when that key holds a string,
and otherwise the record's `id`. -/
theorem claim1_id_title_derivation (yp : List Char → Except String Yaml)
    (notes_dir filename : String) (content : List Char) :
    (∀ s, (parse_markdown_front_matter yp content).get (.str "id") = some (.str s) →
        (processNote yp notes_dir filename content).id = s) ∧
    ((∀ s, (parse_markdown_front_matter yp content).get (.str "id") ≠ some (.str s)) →
        (processNote yp notes_dir filename content).id
          = String.mk (splitext_root filename.data)) ∧
    (∀ s, (parse_markdown_front_matter yp content).get (.str "title") = some (.str s) →
        (processNote yp notes_dir filename content).title = s) ∧
    ((∀ s, (parse_markdown_front_matter yp content).get (.str "title") ≠ some (.str s)) →
        (processNote yp notes_dir filename content).title
          = (processNote yp notes_dir filename content).id) := by
  refine ⟨?_, ?_, ?_, ?_⟩
  · intro s h
    simp [processNote, h]
  · intro hno
    rcases hg : (parse_markdown_front_matter yp content).get (.str "id") with _ | v
    · simp [processNote, hg]
    · cases v
      case str s => exact absurd hg (hno s)
      all_goals simp [processNote, hg]
  · intro s h
    simp [processNote, h]
  · intro hno
    rcases hg : (parse_markdown_front_matter yp content).get (.str "title") with _ | v
    · simp [processNote, hg]
    · cases v
      case str s => exact absurd hg (hno s)
      all_goals simp [processNote, hg]

/-- Witness for C1 at the spec's own scenario (`id: alpha`, `title: Alpha`). -/
theorem claim1_witness :
    (processNote ypAlpha "notes" "a.md" "---\nid: alpha\ntitle: Alpha\n---\n# Body".data).id
        = "alpha" ∧
    (processNote ypAlpha "notes" "a.md" "---\nid: alpha\ntitle: Alpha\n---\n# Body".data).title
        = "Alpha" :=
  ⟨(claim1_id_title_derivation ypAlpha "notes" "a.md"
      "---\nid: alpha\ntitle: Alpha\n---\n# Body".data).1 "alpha" rfl,
   (claim1_id_title_derivation ypAlpha "notes" "a.md"
      "---\nid: alpha\ntitle: Alpha\n---\n# Body".data).2.2.1 "Alpha" rfl⟩

/-- C2: the `notes` list is exactly one record per directory entry whose
lowercased name ends in `.md`, mapped in the order of the case-sensitive
lexicographic sort of the listing (a permutation of it); no entry is merged,
deduplicated or dropped. -/
theorem claim2_one_record_per_md (yp : List Char → Except String Yaml)
    (notes_dir : String) (listing : List String) (rf : String → List Char) :
    (build_config_from_notes yp notes_dir listing rf).notes
        = ((pySorted listing).filter isMdFile).map
            (fun fn => processNote yp notes_dir fn (rf (os_path_join notes_dir fn))) ∧
    List.Perm (pySorted listing) listing ∧
    List.Sorted (fun a b : String => a ≤ b) (pySorted listing) := by
  refine ⟨?_, pySorted_perm listing, pySorted_sorted listing⟩
  simp only [build_config_from_notes]
  rw [foldl_notes]
  simp

/-- On content that passes the two guards, the extractor is `fmResult` on
the middle segment. -/
theorem parse_eq_fmResult (yp : List Char → Except String Yaml) (content : List Char)
    (h1 : isPre SEP content = true) (h2 : ¬ (splitLimit SEP 2 content).length < 3) :
    parse_markdown_front_matter yp content
      = fmResult yp ((splitLimit SEP 2 content).getD 1 []) := by
  unfold parse_markdown_front_matter
  rw [if_pos h1]
  show (if (splitLimit SEP 2 content).length < 3 then YamlMap.nil
    else fmResult yp ((splitLimit SEP 2 content).getD 1 [])) = _
  rw [if_neg h2]

/-- C3: the front-matter extractor is total; it returns the empty mapping
when the content does not begin with `'---'`, when the split yields fewer
than 3 segments, when the YAML parser raises, or when the parsed result is
not a mapping, and otherwise returns the parsed mapping itself. -/
theorem claim3_extractor_total (yp : List Char → Except String Yaml) (content : List Char) :
    (isPre SEP content = false → parse_markdown_front_matter yp content = .nil) ∧
    ((splitLimit SEP 2 content).length < 3 → parse_markdown_front_matter yp content = .nil) ∧
    (∀ e, yp ((splitLimit SEP 2 content).getD 1 []) = .error e →
        parse_markdown_front_matter yp content = .nil) ∧
    (∀ v, yp ((splitLimit SEP 2 content).getD 1 []) = .ok v → (∀ m, v ≠ Yaml.map m) →
        parse_markdown_front_matter yp content = .nil) ∧
    (∀ m, isPre SEP content = true → ¬ (splitLimit SEP 2 content).length < 3 →
        yp ((splitLimit SEP 2 content).getD 1 []) = .ok (.map m) →
        parse_markdown_front_matter yp content = m) := by
  refine ⟨?_, ?_, ?_, ?_, ?_⟩
  · intro h
    simp [parse_markdown_front_matter, h]
  · intro h
    simp [parse_markdown_front_matter, h]
  · intro e he
    by_cases h1 : isPre SEP content = true
    · by_cases h2 : (splitLimit SEP 2 content).length < 3
      · simp [parse_markdown_front_matter, h1, h2]
      · rw [parse_eq_fmResult yp content h1 h2, fmResult, he]
    · simp [parse_markdown_front_matter, h1]
  · intro v hv hnm
    by_cases h1 : isPre SEP content = true
    · by_cases h2 : (splitLimit SEP 2 content).length < 3
      · simp [parse_markdown_front_matter, h1, h2]
      · rw [parse_eq_fmResult yp content h1 h2, fmResult, hv]
        rcases v with s | n | b | _ | xs | kvs
        · rfl
        · rfl
        · rfl
        · rfl
        · rfl
        · exact absurd rfl (hnm kvs)
    · simp [parse_markdown_front_matter, h1]
  · intro m h1 h2 h3
    rw [parse_eq_fmResult yp content h1 h2, fmResult, h3]

/-- Witness for C3's last case at a concrete well-formed front-matter. -/
theorem claim3_witness :
    parse_markdown_front_matter ypAlpha "---\nid: alpha\ntitle: Alpha\n---\n# Body".data
      = YamlMap.cons (.str "id") (.str "alpha")
          (.cons (.str "title") (.str "Alpha") .nil) :=
  (claim3_extractor_total ypAlpha
      "---\nid: alpha\ntitle: Alpha\n---\n# Body".data).2.2.2.2
    (YamlMap.cons (.str "id") (.str "alpha") (.cons (.str "title") (.str "Alpha") .nil))
    rfl (by decide) rfl

/-- Counterexample to C4: front-matter `tags: [1]` is a list whose element
is the integer `1`, not a string; the code copies it into the record instead
of replacing it by the empty sequence demanded by the claim. -/
theorem claim4_counterexample :
    (parse_markdown_front_matter ypTagsNum "---\ntags: [1]\n---\nbody".data).get (.str "tags")
        = some (.list (.cons (.int 1) .nil)) ∧
    (processNote ypTagsNum "notes" "a.md" "---\ntags: [1]\n---\nbody".data).tags
        = YamlSeq.cons (.int 1) .nil ∧
    yamlSeqBeq (processNote ypTagsNum "notes" "a.md" "---\ntags: [1]\n---\nbody".data).tags
        YamlSeq.nil = false :=
  ⟨rfl, rfl, rfl⟩

/-- C4 as amended: `tags` and `links` are taken from front-matter exactly
when the value present is a list — whatever its element types — and are the
empty sequence otherwise (absent or non-list). -/
theorem claim4_amended_list_shape (yp : List Char → Except String Yaml)
    (notes_dir filename : String) (content : List Char) :
    (∀ xs, (parse_markdown_front_matter yp content).get (.str "tags") = some (.list xs) →
        (processNote yp notes_dir filename content).tags = xs) ∧
    ((∀ xs, (parse_markdown_front_matter yp content).get (.str "tags") ≠ some (.list xs)) →
        (processNote yp notes_dir filename content).tags = YamlSeq.nil) ∧
    (∀ xs, (parse_markdown_front_matter yp content).get (.str "links") = some (.list xs) →
        (processNote yp notes_dir filename content).links = xs) ∧
    ((∀ xs, (parse_markdown_front_matter yp content).get (.str "links") ≠ some (.list xs)) →
        (processNote yp notes_dir filename content).links = YamlSeq.nil) := by
  refine ⟨?_, ?_, ?_, ?_⟩
  · intro xs h
    simp [processNote, h]
  · intro hno
    rcases hg : (parse_markdown_front_matter yp content).get (.str "tags") with _ | v
    · simp [processNote, hg]
    · rcases v with s | n | b | _ | xs | kvs
      all_goals first
        | exact absurd hg (hno _)
        | simp [processNote, hg]
  · intro xs h
    simp [processNote, h]
  · intro hno
    rcases hg : (parse_markdown_front_matter yp content).get (.str "links") with _ | v
    · simp [processNote, hg]
    · rcases v with s | n | b | _ | xs | kvs
      all_goals first
        | exact absurd hg (hno _)
        | simp [processNote, hg]

/-- Witness for the amended C4: a list with a non-string element is copied,
an absent key falls back to the empty sequence. -/
theorem claim4_witness :
    (processNote ypTagsNum "notes" "a.md" "---\ntags: [1]\n---\nbody".data).tags
        = YamlSeq.cons (.int 1) .nil ∧
    (processNote ypTagsNum "notes" "a.md" "---\ntags: [1]\n---\nbody".data).links
        = YamlSeq.nil := by
  constructor
  · exact (claim4_amended_list_shape ypTagsNum "notes" "a.md"
      "---\ntags: [1]\n---\nbody".data).1 (YamlSeq.cons (.int 1) .nil) rfl
  · refine (claim4_amended_list_shape ypTagsNum "notes" "a.md"
      "---\ntags: [1]\n---\nbody".data).2.2.2 ?_
    intro xs hxs
    have hn : (parse_markdown_front_matter ypTagsNum
        "---\ntags: [1]\n---\nbody".data).get (.str "links") = none := rfl
    rw [hn] at hxs
    exact Option.noConfusion hxs

/-- Counterexample to C5: in `---\nid: a---rest` no line after the first is
`---`, so under the claim no closing delimiter exists and the extractor
should yield the empty mapping; the code closes the block at the mid-line
`---` and yields `id: a`. -/
theorem claim5_counterexample :
    ((linesOf "---\nid: a---rest".data).drop 1).all (fun l => ! (l == SEP)) = true ∧
    parse_markdown_front_matter ypIdA "---\nid: a---rest".data
        = YamlMap.cons (.str "id") (.str "a") .nil ∧
    yamlMapBeq (parse_markdown_front_matter ypIdA "---\nid: a---rest".data) YamlMap.nil
        = false :=
  ⟨by decide, rfl, rfl⟩

/-- C5 as amended: the block opens whenever the content begins with the
three characters `---` and is closed by the next occurrence of `---`
anywhere — even in the middle of a line; if `---` does not occur again, no
front-matter is recognized. -/
theorem claim5_amended_substring_delimiters (yp : List Char → Except String Yaml)
    (rest : List Char) :
    parse_markdown_front_matter yp (SEP ++ rest) =
      (match findSep SEP rest with
      | none => YamlMap.nil
      | some (b, _) => fmResult yp b) :=
  parse_SEP_led yp rest

/-- Counterexample to C6: the emitted field order is
`id`, `title`, `tags`, `file`, `links` — not the §3 order
`id`, `title`, `tags`, `links`, `file`. -/
theorem claim6_counterexample :
    objKeys (noteObj (processNote ypNull "notes" "a.md" "# hi".data))
        = ["id", "title", "tags", "file", "links"] ∧
    (objKeys (noteObj (processNote ypNull "notes" "a.md" "# hi".data))
        == ["id", "title", "tags", "links", "file"]) = false :=
  ⟨rfl, by decide⟩

/-- C6 as amended: every emitted record's field order is
`id`, `title`, `tags`, `file`, `links`, the dict-literal order of the
source (and the order shown in §6). -/
theorem claim6_amended_field_order (r : NoteRecord) :
    objKeys (noteObj r) = ["id", "title", "tags", "file", "links"] := rfl

/-- C7: when the `notes` directory is absent, the run aborts via
`SystemExit` (non-zero status) with its diagnostic message, and the
filesystem is untouched — no directory is created and `config.json` is
neither written nor modified. -/
theorem claim7_missing_dir_aborts (yp : List Char → Except String Yaml) (fs : FS)
    (h : fs.notesDirExists = false) :
    main' yp fs = (fs, RunOutcome.exitError dirMissingMsg) := by
  simp [main', h]

/-- Witness for C7 on a state with a stale `config.json`, left unchanged. -/
theorem claim7_witness :
    main' ypNull ⟨false, [], fun _ => [], some "old"⟩
      = (⟨false, [], fun _ => [], some "old"⟩, RunOutcome.exitError dirMissingMsg) :=
  claim7_missing_dir_aborts ypNull ⟨false, [], fun _ => [], some "old"⟩ rfl

/-- C8: the transform is deterministic — two runs over the same directory
content (the OS may hand back the listing in any order, i.e. any permutation)
write byte-identical `config.json` text. -/
theorem claim8_deterministic (yp : List Char → Except String Yaml)
    (l1 l2 : List String) (rf : String → List Char) (cj1 cj2 : Option String)
    (h : List.Perm l1 l2) :
    (main' yp ⟨true, l1, rf, cj1⟩).1.configJson
      = (main' yp ⟨true, l2, rf, cj2⟩).1.configJson := by
  have hs : pySorted l1 = pySorted l2 := pySorted_eq_of_perm h
  simp [main', build_config_from_notes, hs]

/-- Witness for C8 with the same two files listed in either order. -/
theorem claim8_witness :
    (main' ypNull ⟨true, ["b.md", "a.md"], fun _ => [], none⟩).1.configJson
      = (main' ypNull ⟨true, ["a.md", "b.md"], fun _ => [], none⟩).1.configJson :=
  claim8_deterministic ypNull ["b.md", "a.md"] ["a.md", "b.md"] (fun _ => []) none none
    (List.Perm.swap "a.md" "b.md" [])

/-- C9: any front-matter list under `tags` or `links` is copied into the
record and into the serialized note object verbatim, its element types
unchecked, so non-string entries reach `config.json` as-is. -/
theorem claim9_lists_copied_verbatim (yp : List Char → Except String Yaml)
    (notes_dir filename : String) (content : List Char) :
    (∀ xs, (parse_markdown_front_matter yp content).get (.str "tags") = some (.list xs) →
        (processNote yp notes_dir filename content).tags = xs ∧
        objLookup "tags" (noteObj (processNote yp notes_dir filename content))
          = some (.arr (yamlSeqToArr xs))) ∧
    (∀ xs, (parse_markdown_front_matter yp content).get (.str "links") = some (.list xs) →
        (processNote yp notes_dir filename content).links = xs ∧
        objLookup "links" (noteObj (processNote yp notes_dir filename content))
          = some (.arr (yamlSeqToArr xs))) := by
  constructor
  · intro xs h
    have ht : (processNote yp notes_dir filename content).tags = xs := by
      simp [processNote, h]
    have hl : objLookup "tags" (noteObj (processNote yp notes_dir filename content))
        = some (.arr (yamlSeqToArr (processNote yp notes_dir filename content).tags)) := rfl
    rw [ht] at hl
    exact ⟨ht, hl⟩
  · intro xs h
    have ht : (processNote yp notes_dir filename content).links = xs := by
      simp [processNote, h]
    have hl : objLookup "links" (noteObj (processNote yp notes_dir filename content))
        = some (.arr (yamlSeqToArr (processNote yp notes_dir filename content).links)) := rfl
    rw [ht] at hl
    exact ⟨ht, hl⟩

/-- Witness for C9: the integer element `1` flows into the serialized
`tags` array as the JSON number `1`. -/
theorem claim9_witness :
    (processNote ypTagsNum "notes" "a.md" "---\ntags: [1]\n---\nbody".data).tags
        = YamlSeq.cons (.int 1) .nil ∧
    objLookup "tags"
        (noteObj (processNote ypTagsNum "notes" "a.md" "---\ntags: [1]\n---\nbody".data))
        = some (.arr (.cons (.num 1) .nil)) := by
  have h := (claim9_lists_copied_verbatim ypTagsNum "notes" "a.md"
    "---\ntags: [1]\n---\nbody".data).1 (YamlSeq.cons (.int 1) .nil) rfl
  exact ⟨h.1, h.2⟩

/-- C10: the note body never influences the record — with identical
front-matter text `F` free of `---`, any two bodies yield identical
`NoteRecord`s for the same filename. -/
theorem claim10_body_never_influences (yp : List Char → Except String Yaml)
    (notes_dir filename : String) (F B1 B2 : List Char)
    (h : hasSub SEP F = false) :
    processNote yp notes_dir filename (SEP ++ F ++ SEP ++ B1)
      = processNote yp notes_dir filename (SEP ++ F ++ SEP ++ B2) := by
  have hp := parse_body_indep F h yp B1 B2
  simp only [List.append_assoc] at hp
  simp [processNote, hp]

/-- Witness for C10 with two different bodies behind the same front-matter. -/
theorem claim10_witness :
    hasSub SEP "\nid: w\n".data = false ∧
    processNote ypNull "notes" "a.md" (SEP ++ "\nid: w\n".data ++ SEP ++ "body one".data)
      = processNote ypNull "notes" "a.md" (SEP ++ "\nid: w\n".data ++ SEP ++ "body two".data) :=
  ⟨by decide, claim10_body_never_influences ypNull "notes" "a.md" "\nid: w\n".data
      "body one".data "body two".data (by decide)⟩
